import Mathlib

/-!
Shallow embedding of the stock prediction engine in
`src/backend/predictions_service.py` (class `StockPredictor`).

Modelling conventions:
* Python floats are modelled as exact numbers: quantities that the code
  computes by field operations only live in `ℚ`; quantities that pass
  through `math`-level `sqrt` (via `statistics.stdev`) or `np.tanh`
  live in `ℝ`.
* Python list slices translate to `List.take` / `List.drop`;
  `prices[-period:]` is `prices.drop (prices.length - period)`.
* A Python `ZeroDivisionError` (caught by the blanket `except` in
  `predict_price`, which then returns `None`) is modelled by `Option`:
  every genuine runtime division of the code is guarded, and a zero
  divisor yields `none`, exactly like the exception path.
* Python truthiness tests (`if sma_20 and sma_50:`, `if signal_line`)
  are modelled literally: `None` and the number `0` are falsy.
* The boundary rounding `round(x, 2)` of binary floats is modelled as
  decimal rounding half-up; the two differ only on exact half-cent
  ties, which no theorem below exercises.
* The jitter `np.random.uniform(-0.2, 0.2)` drawn once per projected
  day is modelled by an explicit stream `u : ℕ → ℝ` of the raw uniform
  draws, indexed by day.
-/

open scoped Classical

/-- Decimal rounding of a rational to 2 places, half up:
models the boundary `round(x, 2)` of the Python code. -/
def roundq2 (q : ℚ) : ℚ := (⌊q * 100 + 1 / 2⌋ : ℚ) / 100

/-- Decimal rounding of a real to 2 places, half up. -/
noncomputable def roundr2 (x : ℝ) : ℝ := (⌊x * 100 + 1 / 2⌋ : ℝ) / 100

/-- Decimal rounding of a real to 1 place, half up:
models `round(confidence, 1)`. -/
noncomputable def roundr1 (x : ℝ) : ℝ := (⌊x * 10 + 1 / 2⌋ : ℝ) / 10

/-- Python truthiness of an optional number: `None` and `0` are falsy. -/
def truthy : Option ℚ → Bool
  | none => false
  | some x => x != 0

/-- Arithmetic mean of a list of rationals (`sum(xs)/len(xs)`). -/
def listMean (xs : List ℚ) : ℚ := xs.sum / xs.length

/-- Sample variance with Bessel correction (divisor `n - 1`):
`statistics.stdev(xs)` is the square root of this. -/
def sampleVar (xs : List ℚ) : ℚ :=
  (xs.map (fun x => (x - listMean xs) ^ 2)).sum / ((xs.length : ℚ) - 1)

/-- `statistics.stdev`, the square root of the Bessel-corrected
sample variance. -/
noncomputable def sampleStdev (xs : List ℚ) : ℝ := Real.sqrt (sampleVar xs)

namespace StockPredictor

/-- `calculate_sma(prices, period)`: mean of the trailing `period`
values, `None` when the list is shorter than `period`. -/
def calculate_sma (prices : List ℚ) (period : ℕ) : Option ℚ :=
  if prices.length < period then none
  else some ((prices.drop (prices.length - period)).sum / period)

/-- `calculate_ema(prices, period)`: seed with the SMA of the first
`period` values, then fold the recurrence
`ema = price*k + ema*(1-k)` with `k = 2/(period+1)` left to right
over the remaining values. -/
def calculate_ema (prices : List ℚ) (period : ℕ) : Option ℚ :=
  if prices.length < period then none
  else
    let multiplier : ℚ := 2 / (period + 1)
    some ((prices.drop period).foldl
      (fun ema price => price * multiplier + ema * (1 - multiplier))
      ((prices.take period).sum / period))

/-- The consecutive deltas `prices[i] - prices[i-1]`. -/
def deltas (prices : List ℚ) : List ℚ :=
  List.zipWith (fun a b => b - a) prices (prices.drop 1)

/-- Average gain over the trailing `period` deltas
(`sum(gains) / period` in `calculate_rsi`). -/
def avgGain (prices : List ℚ) (period : ℕ) : ℚ :=
  (((deltas prices).drop ((deltas prices).length - period)).map
    (fun d => if d > 0 then d else 0)).sum / period

/-- Average (absolute) loss over the trailing `period` deltas
(`sum(losses) / period` in `calculate_rsi`). -/
def avgLoss (prices : List ℚ) (period : ℕ) : ℚ :=
  (((deltas prices).drop ((deltas prices).length - period)).map
    (fun d => if d < 0 then -d else 0)).sum / period

/-- `calculate_rsi(prices, period=14)`: 50 when fewer than
`period + 1` prices, 100 when the average loss vanishes, otherwise
`100 - 100/(1 + avg_gain/avg_loss)`. -/
def calculate_rsi (prices : List ℚ) (period : ℕ) : ℚ :=
  if prices.length < period + 1 then 50
  else if avgLoss prices period = 0 then 100
  else 100 - 100 / (1 + avgGain prices period / avgLoss prices period)

/-- `calculate_momentum(prices, period)`: 0 for short input, otherwise
`(prices[-1] - prices[-period]) / prices[-period] * 100`; a zero
divisor raises in Python, hence `none`. -/
def calculate_momentum (prices : List ℚ) (period : ℕ) : Option ℚ :=
  if prices.length < period then some 0
  else
    let base := prices.getD (prices.length - period) 0
    if base = 0 then none
    else some ((prices.getLastD 0 - base) / base * 100)

/-- The percentage returns `(prices[i] - prices[i-1]) / prices[i-1]`
over a window; `none` when some divisor is 0 (Python raises). -/
def pctReturns (xs : List ℚ) : Option (List ℚ) :=
  if 0 ∈ xs.dropLast then none
  else some (List.zipWith (fun a b => (b - a) / a) xs (xs.drop 1))

/-- `calculate_volatility(prices, period=20)`: sample standard
deviation of the daily returns over the trailing `period` prices,
times 100; 0 for short input. -/
noncomputable def calculate_volatility (prices : List ℚ) (period : ℕ) :
    Option ℝ :=
  if prices.length < period then some 0
  else
    match pctReturns (prices.drop (prices.length - period)) with
    | none => none
    | some returns =>
        if returns.length ≤ 1 then some 0
        else some (sampleStdev returns * 100)

/-- The first `k` steps of the `macd_values` loop of
`calculate_macd`: step `k` handles `i = 26 + k`, recomputing `EMA12`
and `EMA26` on the prefix `prices[:i+1]` and appending the difference
when both EMAs are truthy (Python skips a value when an EMA is `None`
or exactly 0). -/
def macdValuesAux (prices : List ℚ) : ℕ → List ℚ
  | 0 => []
  | k + 1 =>
      macdValuesAux prices k ++
        (match calculate_ema (prices.take (26 + k + 1)) 12,
               calculate_ema (prices.take (26 + k + 1)) 26 with
         | some e12, some e26 =>
             if e12 ≠ 0 ∧ e26 ≠ 0 then [e12 - e26] else []
         | _, _ => [])

/-- The prefix MACD values of `calculate_macd`: the loop
`for i in range(26, len(prices))`. -/
def macdValues (prices : List ℚ) : List ℚ :=
  macdValuesAux prices (prices.length - 26)

/-- `calculate_macd(prices)`: `(macd_line, signal_line, histogram)`.
All zero below 26 prices; the signal line is the 9-period EMA of the
prefix MACD values when at least 9 exist, else 0; the histogram is
`macd_line - signal_line` when the signal line is truthy, else 0. -/
def calculate_macd (prices : List ℚ) : ℚ × ℚ × ℚ :=
  if prices.length < 26 then (0, 0, 0)
  else
    match calculate_ema prices 12, calculate_ema prices 26 with
    | some ema12, some ema26 =>
        let macdLine := ema12 - ema26
        let signalLine :=
          if 9 ≤ (macdValues prices).length then
            (calculate_ema (macdValues prices) 9).getD 0
          else 0
        let histogram := if signalLine ≠ 0 then macdLine - signalLine else 0
        (macdLine, signalLine, histogram)
    | _, _ => (0, 0, 0)

/-- `calculate_bollinger_bands(prices, period=20)`:
`(upper, middle, lower)` with `middle` the SMA of the trailing window
and the bands at distance twice the sample standard deviation of the
trailing prices; `none` below `period` prices. -/
noncomputable def calculate_bollinger_bands (prices : List ℚ) (period : ℕ) :
    Option (ℝ × ℝ × ℝ) :=
  if prices.length < period then none
  else
    match calculate_sma prices period with
    | none => none
    | some sma =>
        let stdDev := sampleStdev (prices.drop (prices.length - period))
        some ((sma : ℝ) + 2 * stdDev, (sma : ℝ), (sma : ℝ) - 2 * stdDev)

/-- `detect_support_resistance(prices, window=20)`: min and max of the
trailing window, `none` for short input. -/
def detect_support_resistance (prices : List ℚ) (window : ℕ) :
    Option ℚ × Option ℚ :=
  if prices.length < window then (none, none)
  else
    let recent := prices.drop (prices.length - window)
    (some (recent.foldr min (recent.getLastD 0)),
     some (recent.foldr max (recent.getLastD 0)))

/-! ## Composite signal scorer (`predict_price`, component block) -/

/-- The RSI component before weighting: oversold scores positive,
overbought negative. -/
def rsiSignal (rsi : ℚ) : ℚ :=
  if rsi < 30 then 3
  else if rsi < 40 then 1.5
  else if rsi > 70 then -3
  else if rsi > 60 then -1.5
  else 0

/-- The moving-average crossover component before weighting:
`tanh(((sma_20 - sma_50)/sma_50 * 100)/2) * 3` when both SMAs are
truthy (present and nonzero), else 0. -/
noncomputable def maSignal (sma20 sma50 : Option ℚ) : ℝ :=
  match sma20, sma50 with
  | some s20, some s50 =>
      if s20 ≠ 0 ∧ s50 ≠ 0 then
        Real.tanh ((((s20 - s50) / s50 * 100 : ℚ) : ℝ) / 2) * 3
      else 0
  | _, _ => 0

/-- The momentum component before weighting: `tanh(momentum/10) * 3`. -/
noncomputable def momentumSignal (momentum : ℚ) : ℝ :=
  Real.tanh ((momentum : ℝ) / 10) * 3

/-- The MACD component before weighting: `min(2, |histogram|*10)`
carrying the sign of the histogram (the `histogram > 0` test routes 0
to the negative branch, giving `-0 = 0`). -/
def macdSignalOf (histogram : ℚ) : ℚ :=
  if histogram > 0 then min 2 (|histogram| * 10)
  else -(min 2 (|histogram| * 10))

/-- The Bollinger component before weighting: position of the current
price inside the bands, +2 below 0.2, -2 above 0.8, else 0; skipped
(0) when a band is `None` or falsy; `none` models the
`ZeroDivisionError` raised when the band width is 0. -/
noncomputable def bbSignalOf (bands : Option (ℝ × ℝ × ℝ)) (currentPrice : ℚ) :
    Option ℝ :=
  match bands with
  | some (upper, _, lower) =>
      if upper ≠ 0 ∧ lower ≠ 0 then
        if upper - lower = 0 then none
        else
          let bbPosition := ((currentPrice : ℝ) - lower) / (upper - lower)
          some (if bbPosition < 0.2 then 2
                else if bbPosition > 0.8 then -2
                else 0)
      else some 0
  | none => some 0

/-- The composite `prediction_score`: sum of the five weighted
components, in the insertion order of the Python dict. -/
noncomputable def predictionScore (rsi : ℚ) (sma20 sma50 : Option ℚ)
    (momentum : ℚ) (macdHistogram : ℚ) (bbSignal : ℝ) : ℝ :=
  (rsiSignal rsi : ℝ) * 0.30 + maSignal sma20 sma50 * 0.25 +
    momentumSignal momentum * 0.20 + (macdSignalOf macdHistogram : ℝ) * 0.15 +
    bbSignal * 0.10

/-! ## Projection generator (`predict_price`, prediction loop) -/

/-- The progressive amplification `1 + (day/days_ahead) * 0.2`. -/
noncomputable def dayFactor (daysAhead day : ℕ) : ℝ :=
  1 + ((day : ℝ) / daysAhead) * 0.2

/-- The running `cumulative_change` after `d` loop iterations: each
day adds `daily_rate * day_factor + random_factor`, where the random
factor is the uniform draw for that day times `volatility * 0.1`. -/
noncomputable def cumulativeChange (dailyRate volatility : ℝ) (u : ℕ → ℝ)
    (daysAhead : ℕ) : ℕ → ℝ
  | 0 => 0
  | d + 1 =>
      cumulativeChange dailyRate volatility u daysAhead d +
        (dailyRate * dayFactor daysAhead (d + 1) + u (d + 1) * volatility * 0.1)

/-- One projected point, with price and cumulative change rounded at
the boundary as in the source. -/
structure Prediction where
  day : ℕ
  price : ℝ
  change_pct : ℝ

/-- The prediction loop `for day in range(1, days_ahead + 1)`:
`price = current_price * (1 + cumulative_change/100)`. -/
noncomputable def genPredictions (currentPrice : ℚ) (dailyRate volatility : ℝ)
    (u : ℕ → ℝ) (daysAhead : ℕ) : List Prediction :=
  (List.range daysAhead).map fun i =>
    { day := i + 1
      price := roundr2 ((currentPrice : ℝ) *
        (1 + cumulativeChange dailyRate volatility u daysAhead (i + 1) / 100))
      change_pct :=
        roundr2 (cumulativeChange dailyRate volatility u daysAhead (i + 1)) }

/-! ## Classifier (`predict_price`, signal and confidence block).
The source computes the label and the confidence in a single
if-elif chain; the two functions below share that chain verbatim. -/

/-- The signal label from the prediction score. -/
noncomputable def signalOf (score : ℝ) : String :=
  if score > 1.5 then "STRONG BUY"
  else if score > 0.5 then "BUY"
  else if score < -1.5 then "STRONG SELL"
  else if score < -0.5 then "SELL"
  else "HOLD"

/-- The confidence before volatility scaling, per tier of the same
if-elif chain (`abs_score = abs(prediction_score)`). -/
noncomputable def baseConfidence (score : ℝ) : ℝ :=
  if score > 1.5 then min 85 (55 + |score| * 10)
  else if score > 0.5 then min 75 (50 + |score| * 8)
  else if score < -1.5 then min 85 (55 + |score| * 10)
  else if score < -0.5 then min 75 (50 + |score| * 8)
  else 50 + |score| * 5

/-- The volatility adjustment: `*= 0.85` above 5, else `*= 0.92`
above 3. -/
noncomputable def volatilityScale (volatility : ℝ) : ℝ :=
  if volatility > 5 then 0.85
  else if volatility > 3 then 0.92
  else 1

/-- The reported confidence: tier base scaled by the volatility
adjustment. -/
noncomputable def confidence (score volatility : ℝ) : ℝ :=
  baseConfidence score * volatilityScale volatility

/-- The display trend score: one vote per truthy SMA comparison. -/
def trendScore (currentPrice : ℚ) (sma20 sma50 sma200 : Option ℚ) : ℤ :=
  (if truthy sma20 then if sma20.getD 0 < currentPrice then 1 else -1 else 0) +
  (if truthy sma50 then if sma50.getD 0 < currentPrice then 1 else -1 else 0) +
  (if truthy sma200 then if sma200.getD 0 < currentPrice then 1 else -1 else 0) +
  (if truthy sma20 && truthy sma50 then
    if sma50.getD 0 < sma20.getD 0 then 1 else -1 else 0) +
  (if truthy sma50 && truthy sma200 then
    if sma200.getD 0 < sma50.getD 0 then 1 else -1 else 0)

/-- The indicator bundle of the response (2-decimal boundary
rounding applied field by field, as in the source). -/
structure Indicators where
  sma_20 : Option ℚ
  sma_50 : Option ℚ
  ema_20 : Option ℚ
  rsi : ℚ
  momentum : ℚ
  volatility : ℝ
  trend_score : ℤ
  support : Option ℚ
  resistance : Option ℚ
  volume_trend : ℚ

/-- The prediction response (`historical_data` and the narrative
`analysis` strings carry no algorithmic content used by any claim and
are omitted; `calculate_trend_strength` is computed by the source
only to be printed and is likewise omitted). -/
structure PredictionResponse where
  current_price : ℚ
  predictions : List Prediction
  signal : String
  confidence : ℝ
  indicators : Indicators

/-- `predict_price(symbol, days_ahead)` after the data fetch: the
whole pipeline from the price/volume history to the response.
`none` models both the `hist.empty` early return and the blanket
`except` that turns any `ZeroDivisionError` into `None`. -/
noncomputable def predict_price (prices volumes : List ℚ) (daysAhead : ℕ)
    (u : ℕ → ℝ) : Option PredictionResponse :=
  if prices = [] ∨ volumes = [] then none
  else
    let currentPrice := prices.getLastD 0
    let sma20 := calculate_sma prices 20
    let sma50 := calculate_sma prices 50
    let sma200 := calculate_sma prices 200
    let ema20 := calculate_ema prices 20
    let rsi := calculate_rsi prices 14
    do
    let momentum ← calculate_momentum prices 10
    -- momentum_long is computed by the source and never used; its
    -- possible ZeroDivisionError is still a failure path.
    let _momentumLong ← calculate_momentum prices 20
    let volatility ← calculate_volatility prices 20
    let macd := calculate_macd prices
    let bands := calculate_bollinger_bands prices 20
    let sr := detect_support_resistance prices 20
    let avgVolume :=
      if 20 ≤ volumes.length then (volumes.drop (volumes.length - 20)).sum / 20
      else volumes.sum / volumes.length
    guard (avgVolume ≠ 0)
    let volumeTrend := (volumes.getLastD 0 - avgVolume) / avgVolume * 100
    -- recent_change (printed only): fails when prices[-5] is 0.
    guard (¬ (5 ≤ prices.length ∧ prices.getD (prices.length - 5) 0 = 0))
    let bbSignal ← bbSignalOf bands currentPrice
    let score := predictionScore rsi sma20 sma50 momentum macd.2.2 bbSignal
    -- days_ahead = 0 would divide by zero below.
    guard (daysAhead ≠ 0)
    let dailyRate := (score * (volatility / 5) + (momentum : ℝ) * 0.1) / daysAhead
    some
      { current_price := roundq2 currentPrice
        predictions := genPredictions currentPrice dailyRate volatility u daysAhead
        signal := signalOf score
        confidence := roundr1 (confidence score volatility)
        indicators :=
          { sma_20 := sma20.map roundq2
            sma_50 := sma50.map roundq2
            ema_20 := ema20.map roundq2
            rsi := roundq2 rsi
            momentum := roundq2 momentum
            volatility := roundr2 volatility
            trend_score := trendScore currentPrice sma20 sma50 sma200
            support := sr.1.map roundq2
            resistance := sr.2.map roundq2
            volume_trend := roundq2 volumeTrend } }

end StockPredictor

open StockPredictor

/-! ## General helper lemmas -/

/-- The hyperbolic tangent squashing is strictly bounded by 1 in
absolute value. -/
theorem abs_tanh_lt_one (x : ℝ) : |Real.tanh x| < 1 := by
  rw [Real.tanh_eq_sinh_div_cosh, abs_div, abs_of_pos (Real.cosh_pos x)]
  rw [div_lt_one (Real.cosh_pos x), abs_lt]
  constructor
  · have h := Real.sinh_lt_cosh (-x)
    rw [Real.sinh_neg, Real.cosh_neg] at h
    linarith
  · exact Real.sinh_lt_cosh x

theorem roundr2_neg_iff (x : ℝ) : roundr2 x < 0 ↔ x < -(1 / 200) := by
  unfold roundr2
  constructor
  · intro h
    have h2 : (⌊x * 100 + 1 / 2⌋ : ℝ) < 0 := by nlinarith
    have h3 : ⌊x * 100 + 1 / 2⌋ < 0 := by exact_mod_cast h2
    rw [Int.floor_lt] at h3
    push_cast at h3
    linarith
  · intro h
    have h3 : ⌊x * 100 + 1 / 2⌋ < 0 := by
      rw [Int.floor_lt]
      push_cast
      linarith
    have h4 : ⌊x * 100 + 1 / 2⌋ ≤ -1 := by omega
    have h5 : (⌊x * 100 + 1 / 2⌋ : ℝ) ≤ -1 := by exact_mod_cast h4
    linarith

theorem roundr2_pos_of (x : ℝ) (h : 1 / 200 ≤ x) : 0 < roundr2 x := by
  unfold roundr2
  have h1 : (1 : ℤ) ≤ ⌊x * 100 + 1 / 2⌋ := by
    rw [Int.le_floor]
    push_cast
    linarith
  positivity

theorem roundr2_eq (x : ℝ) (n : ℤ) (h1 : (n : ℝ) ≤ x * 100 + 1 / 2)
    (h2 : x * 100 + 1 / 2 < n + 1) : roundr2 x = n / 100 := by
  unfold roundr2
  rw [show ⌊x * 100 + 1 / 2⌋ = n from Int.floor_eq_iff.mpr ⟨h1, h2⟩]

theorem roundr1_eq (x : ℝ) (n : ℤ) (h1 : (n : ℝ) ≤ x * 10 + 1 / 2)
    (h2 : x * 10 + 1 / 2 < n + 1) : roundr1 x = n / 10 := by
  unfold roundr1
  rw [show ⌊x * 10 + 1 / 2⌋ = n from Int.floor_eq_iff.mpr ⟨h1, h2⟩]

/-! ## Claim C1: the projection recurrence in closed form -/

/-- The cumulative change the claim describes, in closed form: after
`d` days it is the daily rate times `d` amplified by the accumulated
day factors, plus the accumulated jitter. -/
noncomputable def closedCumulative (dailyRate volatility : ℝ) (u : ℕ → ℝ)
    (daysAhead d : ℕ) : ℝ :=
  dailyRate * (d + (d * (d + 1) / 2) * (0.2 / daysAhead)) +
    (∑ j ∈ Finset.range d, u (j + 1)) * volatility * 0.1

theorem cumulativeChange_eq_closed (dailyRate volatility : ℝ) (u : ℕ → ℝ)
    (daysAhead : ℕ) : ∀ d, cumulativeChange dailyRate volatility u daysAhead d =
      closedCumulative dailyRate volatility u daysAhead d := by
  intro d
  induction d with
  | zero => simp [cumulativeChange, closedCumulative]
  | succ n ih =>
      rw [cumulativeChange, ih, closedCumulative, closedCumulative,
        Finset.sum_range_succ, dayFactor]
      push_cast
      ring

/-- C1: for every horizon at least 1, the projection generator applies
exactly the progressive-amplification policy: with
`daily_rate = (prediction_score * (volatility/5) + momentum * 0.1) / horizon`,
the point for day `i+1` carries the cumulative change
`daily_rate * (day + day*(day+1)/2 * 0.2/horizon)` plus the summed
jitter `uniform_draw * volatility * 0.1`, and price
`current_price * (1 + cumulative_change/100)`; no geometric-decay or
mean-pull term appears in any day. -/
theorem c1_projection_policy (score volatility momentum : ℝ)
    (currentPrice : ℚ) (u : ℕ → ℝ) (daysAhead : ℕ) (hd : 1 ≤ daysAhead) :
    (genPredictions currentPrice
        ((score * (volatility / 5) + momentum * 0.1) / daysAhead)
        volatility u daysAhead).length = daysAhead ∧
    ∀ i, i < daysAhead →
      (genPredictions currentPrice
          ((score * (volatility / 5) + momentum * 0.1) / daysAhead)
          volatility u daysAhead)[i]? =
        some { day := i + 1
               price := roundr2 ((currentPrice : ℝ) * (1 +
                 closedCumulative
                   ((score * (volatility / 5) + momentum * 0.1) / daysAhead)
                   volatility u daysAhead (i + 1) / 100))
               change_pct := roundr2 (closedCumulative
                 ((score * (volatility / 5) + momentum * 0.1) / daysAhead)
                 volatility u daysAhead (i + 1)) } := by
  constructor
  · simp [genPredictions]
  · intro i hi
    simp [genPredictions, List.getElem?_map, List.getElem?_range, hi,
      cumulativeChange_eq_closed]

theorem c1_projection_policy_witness :
    1 ≤ 1 ∧
    ((genPredictions 100 (((2 : ℝ) * ((10 : ℝ) / 5) + 1 * 0.1) / ((1 : ℕ) : ℝ))
        10 (fun _ => 0) 1).length = 1 ∧
    ∀ i, i < 1 →
      (genPredictions 100 (((2 : ℝ) * ((10 : ℝ) / 5) + 1 * 0.1) / ((1 : ℕ) : ℝ))
          10 (fun _ => 0) 1)[i]? =
        some { day := i + 1
               price := roundr2 ((100 : ℚ) * (1 +
                 closedCumulative
                   (((2 : ℝ) * ((10 : ℝ) / 5) + 1 * 0.1) / ((1 : ℕ) : ℝ))
                   10 (fun _ => 0) 1 (i + 1) / 100))
               change_pct := roundr2 (closedCumulative
                 (((2 : ℝ) * ((10 : ℝ) / 5) + 1 * 0.1) / ((1 : ℕ) : ℝ)) 10
                 (fun _ => 0) 1 (i + 1)) }) :=
  ⟨le_refl 1, c1_projection_policy 2 10 1 100 (fun _ => 0) 1 (le_refl 1)⟩

/-! ## Claim C3: RSI bounds and sentinels -/

theorem avgGain_nonneg (prices : List ℚ) (period : ℕ) :
    0 ≤ avgGain prices period := by
  unfold avgGain
  apply div_nonneg _ (by positivity)
  apply List.sum_nonneg
  intro x hx
  obtain ⟨d, _, rfl⟩ := List.mem_map.mp hx
  split <;> linarith

theorem avgLoss_nonneg (prices : List ℚ) (period : ℕ) :
    0 ≤ avgLoss prices period := by
  unfold avgLoss
  apply div_nonneg _ (by positivity)
  apply List.sum_nonneg
  intro x hx
  obtain ⟨d, _, rfl⟩ := List.mem_map.mp hx
  split <;> linarith

/-- C3: the RSI always lies in [0, 100]; it is exactly 100 whenever
enough data is present and the average loss over the trailing deltas
is 0; and it is the neutral sentinel 50 whenever fewer than
`period + 1` prices are available. -/
theorem c3_rsi_bounds_and_sentinels (prices : List ℚ) (period : ℕ) :
    (0 ≤ calculate_rsi prices period ∧ calculate_rsi prices period ≤ 100) ∧
    (prices.length < period + 1 → calculate_rsi prices period = 50) ∧
    (period + 1 ≤ prices.length → avgLoss prices period = 0 →
      calculate_rsi prices period = 100) := by
  refine ⟨?_, ?_, ?_⟩
  · unfold calculate_rsi
    split_ifs with h1 h2
    · norm_num
    · norm_num
    · have hl : 0 < avgLoss prices period :=
        lt_of_le_of_ne (avgLoss_nonneg prices period) (Ne.symm h2)
      have hg := avgGain_nonneg prices period
      have hrs : 0 ≤ avgGain prices period / avgLoss prices period :=
        div_nonneg hg hl.le
      have hb : 100 / (1 + avgGain prices period / avgLoss prices period) ≤ 100 :=
        div_le_self (by norm_num) (by linarith)
      have hp : 0 < 100 / (1 + avgGain prices period / avgLoss prices period) :=
        div_pos (by norm_num) (by linarith)
      constructor <;> linarith
  · intro h
    simp [calculate_rsi, if_pos h]
  · intro h1 h2
    rw [calculate_rsi, if_neg (by omega), if_pos h2]

/-- The example series of spec section 8: nineteen flat closes and a
last-day jump. -/
def jumpSeries : List ℚ :=
  [100, 100, 100, 100, 100, 100, 100, 100, 100, 100,
   100, 100, 100, 100, 100, 100, 100, 100, 100, 130]

theorem c3_rsi_bounds_and_sentinels_witness :
    (14 + 1 ≤ jumpSeries.length ∧ avgLoss jumpSeries 14 = 0 ∧
      calculate_rsi jumpSeries 14 = 100) ∧
    (([1, 2] : List ℚ).length < 14 + 1 ∧
      calculate_rsi ([1, 2] : List ℚ) 14 = 50) :=
  ⟨⟨by decide, by norm_num [avgLoss, deltas, jumpSeries],
    (c3_rsi_bounds_and_sentinels jumpSeries 14).2.2 (by decide)
      (by norm_num [avgLoss, deltas, jumpSeries])⟩,
   ⟨by decide,
    (c3_rsi_bounds_and_sentinels ([1, 2] : List ℚ) 14).2.1 (by decide)⟩⟩

/-! ## Claim C6: MACD histogram versus signal line -/

theorem macdValuesAux_length_le (prices : List ℚ) :
    ∀ k, (macdValuesAux prices k).length ≤ k := by
  intro k
  induction k with
  | zero => simp [macdValuesAux]
  | succ n ih =>
      rw [macdValuesAux, List.length_append]
      rcases h12 : calculate_ema (prices.take (26 + n + 1)) 12 with _ | e12 <;>
        rcases h26 : calculate_ema (prices.take (26 + n + 1)) 26 with _ | e26 <;>
        simp only [List.length_nil, List.length_cons]
      · omega
      · omega
      · omega
      · split_ifs <;> simp only [List.length_cons, List.length_nil] <;> omega

/-- C6 (amended): all three MACD outputs are 0 below 26 prices; at 26
or more prices the histogram equals `macd_line - signal_line` only
when the computed signal line is nonzero, and is 0 when the signal
line is 0 — which in particular happens for every list of fewer than
35 prices, where fewer than 9 prefix MACD values exist. -/
theorem c6_macd_histogram (prices : List ℚ) :
    (prices.length < 26 → calculate_macd prices = (0, 0, 0)) ∧
    (26 ≤ prices.length →
      (calculate_macd prices).2.2 =
        if (calculate_macd prices).2.1 = 0 then 0
        else (calculate_macd prices).1 - (calculate_macd prices).2.1) ∧
    (prices.length < 35 → (calculate_macd prices).2.1 = 0) := by
  refine ⟨?_, ?_, ?_⟩
  · intro h
    simp [calculate_macd, if_pos h]
  · intro h
    unfold calculate_macd
    rw [if_neg (not_lt.mpr h)]
    rcases h12 : calculate_ema prices 12 with _ | e12
    · simp
    · rcases h26 : calculate_ema prices 26 with _ | e26
      · simp
      · by_cases hS : (if 9 ≤ (macdValues prices).length then
            (calculate_ema (macdValues prices) 9).getD 0 else 0) = 0
        · simp only [hS]
          simp
        · simp only [hS]
          simp [hS]
  · intro h
    have hlen : (macdValues prices).length ≤ prices.length - 26 :=
      macdValuesAux_length_le prices (prices.length - 26)
    have h9 : ¬ 9 ≤ (macdValues prices).length := by omega
    unfold calculate_macd
    split_ifs with h26
    · rfl
    · rcases h12 : calculate_ema prices 12 with _ | e12
      · simp
      · rcases hh26 : calculate_ema prices 26 with _ | e26
        · simp
        · simp [h9]

/-- An ascending 30-price series: long enough for the MACD line but
too short for the 9-value signal window. -/
def ascending30 : List ℚ :=
  [1, 2, 3, 4, 5, 6, 7, 8, 9, 10, 11, 12, 13, 14, 15, 16, 17, 18, 19, 20,
   21, 22, 23, 24, 25, 26, 27, 28, 29, 30]

set_option maxHeartbeats 1000000 in
/-- C6 counterexample: on the ascending 30-price series the MACD line
is 7 and the signal line is 0, but the histogram is 0 rather than
`line - signal = 7`: the Python truthiness test
`if signal_line` routes a zero signal line to a zero histogram. -/
theorem c6_macd_histogram_counterexample :
    26 ≤ ascending30.length ∧
    (calculate_macd ascending30).2.2 ≠
      (calculate_macd ascending30).1 - (calculate_macd ascending30).2.1 := by
  constructor
  · decide
  · have h : calculate_macd ascending30 = (7, 0, 0) := by
      norm_num [calculate_macd, calculate_ema, macdValues, macdValuesAux,
        ascending30]
    rw [h]
    norm_num

theorem c6_macd_histogram_witness :
    (([] : List ℚ).length < 26 ∧ calculate_macd ([] : List ℚ) = (0, 0, 0)) ∧
    (26 ≤ ascending30.length ∧
      (calculate_macd ascending30).2.2 =
        if (calculate_macd ascending30).2.1 = 0 then 0
        else (calculate_macd ascending30).1 - (calculate_macd ascending30).2.1) ∧
    (ascending30.length < 35 ∧ (calculate_macd ascending30).2.1 = 0) :=
  ⟨⟨by decide, (c6_macd_histogram []).1 (by decide)⟩,
   ⟨by decide, (c6_macd_histogram ascending30).2.1 (by decide)⟩,
   ⟨by decide, (c6_macd_histogram ascending30).2.2 (by decide)⟩⟩

/-! ## Claim C5: confidence bounds, tier formula, volatility scaling -/

/-- The confidence formula as the (amended) spec states it: tiers
keyed by the magnitude of the score — STRONG tiers are
`min(85, 55 + |score|*10)`, BUY/SELL tiers `min(75, 50 + |score|*8)`,
HOLD `50 + |score|*5` — then scaled by 0.85 above volatility 5 and by
0.92 above volatility 3. -/
noncomputable def confidenceSpec (score volatility : ℝ) : ℝ :=
  (if 1.5 < |score| then min 85 (55 + |score| * 10)
   else if 0.5 < |score| then min 75 (50 + |score| * 8)
   else 50 + |score| * 5) *
  (if volatility > 5 then 0.85 else if volatility > 3 then 0.92 else 1)

theorem baseConfidence_bounds (score : ℝ) :
    50 ≤ baseConfidence score ∧ baseConfidence score ≤ 85 := by
  have ha := abs_nonneg score
  unfold baseConfidence
  split_ifs with h1 h2 h3 h4
  · exact ⟨le_min (by norm_num) (by nlinarith), min_le_left _ _⟩
  · refine ⟨le_min (by norm_num) (by nlinarith), le_trans (min_le_left _ _) ?_⟩
    norm_num
  · exact ⟨le_min (by norm_num) (by nlinarith), min_le_left _ _⟩
  · refine ⟨le_min (by norm_num) (by nlinarith), le_trans (min_le_left _ _) ?_⟩
    norm_num
  · have habs : |score| ≤ 1 / 2 := abs_le.mpr ⟨by linarith, by linarith⟩
    constructor <;> nlinarith

theorem baseConfidence_eq_spec_base (score : ℝ) :
    baseConfidence score =
      if 1.5 < |score| then min 85 (55 + |score| * 10)
      else if 0.5 < |score| then min 75 (50 + |score| * 8)
      else 50 + |score| * 5 := by
  rcases le_or_lt 0 score with hs | hs
  · rw [abs_of_nonneg hs]
    unfold baseConfidence
    rw [abs_of_nonneg hs]
    split_ifs <;> first | rfl | (exfalso; linarith)
  · rw [abs_of_neg hs]
    unfold baseConfidence
    rw [abs_of_neg hs]
    split_ifs <;> first | rfl | (exfalso; linarith)

/-- C5 (amended): the confidence is always in [0, 100]; it equals the
tier formula `min(85, 55 + |score|*10)` for STRONG tiers,
`min(75, 50 + |score|*8)` for BUY/SELL, `50 + |score|*5` for HOLD,
scaled by 0.85 when volatility exceeds 5 and by 0.92 when it exceeds
3; and an input with volatility above 5 has strictly lower confidence
than an otherwise-identical input whose volatility is at most 5. -/
theorem c5_confidence_bounds_and_scaling (score volatility : ℝ) :
    (0 ≤ confidence score volatility ∧ confidence score volatility ≤ 100) ∧
    confidence score volatility = confidenceSpec score volatility ∧
    (5 < volatility → ∀ volatility', volatility' ≤ 5 →
      confidence score volatility < confidence score volatility') := by
  obtain ⟨hb1, hb2⟩ := baseConfidence_bounds score
  refine ⟨?_, ?_, ?_⟩
  · unfold confidence volatilityScale
    split_ifs <;> constructor <;> nlinarith
  · unfold confidence confidenceSpec volatilityScale
    rw [baseConfidence_eq_spec_base]
  · intro hv volatility' hv'
    unfold confidence volatilityScale
    rw [if_pos hv]
    split_ifs with h1 h2
    · linarith
    · nlinarith
    · nlinarith

/-- C5 counterexample, refuting the claim as stated on two points:
two inputs with identical score 1 and volatilities 7 and 6 — the
second strictly lower but both above 5 — receive equal confidence,
not strictly decreasing; and no coefficient `k` makes the STRONG-BUY
tier equal to `min(85, 50 + |score|*k)` with base 50, because the
code uses base 55 there. -/
theorem c5_confidence_counterexample :
    confidence 1 7 = confidence 1 6 ∧
    ¬ ∃ k : ℝ, confidence 1.6 0 = min 85 (50 + 1.6 * k) ∧
        confidence 2 0 = min 85 (50 + 2 * k) := by
  have habs16 : |(1.6 : ℝ)| = 1.6 := abs_of_pos (by norm_num)
  have habs2 : |(2 : ℝ)| = 2 := abs_of_pos (by norm_num)
  constructor
  · unfold confidence baseConfidence volatilityScale
    norm_num
  · rintro ⟨k, h1, h2⟩
    have e1 : confidence 1.6 0 = 71 := by
      unfold confidence baseConfidence volatilityScale
      rw [if_pos (by norm_num : (1.6 : ℝ) > 1.5), habs16]
      norm_num [min_def]
    have e2 : confidence 2 0 = 75 := by
      unfold confidence baseConfidence volatilityScale
      rw [if_pos (by norm_num : (2 : ℝ) > 1.5), habs2]
      norm_num [min_def]
    rw [e1] at h1
    rw [e2] at h2
    rcases min_cases (85 : ℝ) (50 + 1.6 * k) with ⟨hm, _⟩ | ⟨hm, _⟩
    · rw [hm] at h1
      norm_num at h1
    · rw [hm] at h1
      have hk : k = 13.125 := by linarith
      subst hk
      norm_num [min_def] at h2

theorem c5_confidence_bounds_and_scaling_witness :
    (0 ≤ confidence 1 7 ∧ confidence 1 7 ≤ 100) ∧
    confidence 1 7 = confidenceSpec 1 7 ∧
    ((5 : ℝ) < 7 ∧ (4 : ℝ) ≤ 5 ∧ confidence 1 7 < confidence 1 4) :=
  ⟨(c5_confidence_bounds_and_scaling 1 7).1,
   (c5_confidence_bounds_and_scaling 1 7).2.1,
   by norm_num, by norm_num,
   (c5_confidence_bounds_and_scaling 1 7).2.2 (by norm_num) 4 (by norm_num)⟩

/-! ## Claim C10: the composite score is bounded by 2.75 -/

theorem abs_rsiSignal_le (rsi : ℚ) : |rsiSignal rsi| ≤ 3 := by
  unfold rsiSignal
  split_ifs <;> (rw [abs_le]; constructor <;> norm_num)

theorem abs_macdSignalOf_le (histogram : ℚ) : |macdSignalOf histogram| ≤ 2 := by
  have h0 : (0 : ℚ) ≤ min 2 (|histogram| * 10) :=
    le_min (by norm_num) (by positivity)
  unfold macdSignalOf
  split_ifs
  · rw [abs_of_nonneg h0]
    exact min_le_left _ _
  · rw [abs_neg, abs_of_nonneg h0]
    exact min_le_left _ _

theorem abs_tanh_mul_three_le (y : ℝ) : |Real.tanh y * 3| ≤ 3 := by
  rw [abs_mul]
  have h1 := (abs_tanh_lt_one y).le
  have h3 : |(3 : ℝ)| = 3 := by norm_num
  rw [h3]
  nlinarith [abs_nonneg (Real.tanh y)]

/-- Unfolding of the crossover contribution on present SMAs. -/
theorem maSignal_some (s20 s50 : ℚ) :
    maSignal (some s20) (some s50) =
      if s20 ≠ 0 ∧ s50 ≠ 0 then
        Real.tanh ((((s20 - s50) / s50 * 100 : ℚ) : ℝ) / 2) * 3
      else 0 := rfl

theorem abs_maSignal_le (sma20 sma50 : Option ℚ) : |maSignal sma20 sma50| ≤ 3 := by
  rcases sma20 with _ | s20 <;> rcases sma50 with _ | s50
  · rw [show maSignal none none = 0 from rfl]
    norm_num
  · rw [show maSignal none (some s50) = 0 from rfl]
    norm_num
  · rw [show maSignal (some s20) none = 0 from rfl]
    norm_num
  · rw [maSignal_some]
    split_ifs
    · exact abs_tanh_mul_three_le _
    · norm_num

theorem abs_momentumSignal_le (momentum : ℚ) : |momentumSignal momentum| ≤ 3 := by
  unfold momentumSignal
  exact abs_tanh_mul_three_le _

/-- Unfolding of the Bollinger contribution on present bands. -/
theorem bbSignalOf_some (upper mid lower : ℝ) (currentPrice : ℚ) :
    bbSignalOf (some (upper, mid, lower)) currentPrice =
      if upper ≠ 0 ∧ lower ≠ 0 then
        if upper - lower = 0 then none
        else
          some (if ((currentPrice : ℝ) - lower) / (upper - lower) < 0.2 then 2
                else if ((currentPrice : ℝ) - lower) / (upper - lower) > 0.8
                then -2
                else 0)
      else some 0 := rfl

/-- C10: the Bollinger contribution is one of -2, 0, 2 whenever the
position computation does not fault, and with any such contribution
the composite prediction score has absolute value at most 2.75, the
sum of the per-indicator bounds 3, 3, 3, 2, 2 times the weights 0.30,
0.25, 0.20, 0.15, 0.10. -/
theorem c10_prediction_score_bound :
    (∀ (bands : Option (ℝ × ℝ × ℝ)) (currentPrice : ℚ) (s : ℝ),
      bbSignalOf bands currentPrice = some s → s = -2 ∨ s = 0 ∨ s = 2) ∧
    (∀ (rsi : ℚ) (sma20 sma50 : Option ℚ) (momentum macdHistogram : ℚ)
      (s : ℝ), (s = -2 ∨ s = 0 ∨ s = 2) →
      |predictionScore rsi sma20 sma50 momentum macdHistogram s| ≤ 2.75) := by
  constructor
  · intro bands currentPrice s h
    rcases bands with _ | ⟨upper, mid, lower⟩
    · unfold bbSignalOf at h
      simp only [Option.some.injEq] at h
      right; left; exact h.symm
    · rw [bbSignalOf_some] at h
      split_ifs at h <;> simp at h <;> tauto
  · intro rsi sma20 sma50 momentum macdHistogram s hs
    have h1 : |((rsiSignal rsi : ℚ) : ℝ)| ≤ 3 := by
      rw [← Rat.cast_abs]
      exact_mod_cast abs_rsiSignal_le rsi
    have h2 := abs_maSignal_le sma20 sma50
    have h3 := abs_momentumSignal_le momentum
    have h4 : |((macdSignalOf macdHistogram : ℚ) : ℝ)| ≤ 2 := by
      rw [← Rat.cast_abs]
      exact_mod_cast abs_macdSignalOf_le macdHistogram
    have h5 : |s| ≤ 2 := by rcases hs with rfl | rfl | rfl <;> norm_num
    unfold predictionScore
    set a := ((rsiSignal rsi : ℚ) : ℝ) * 0.30 with ha
    set b := maSignal sma20 sma50 * 0.25 with hb
    set c := momentumSignal momentum * 0.20 with hc
    set d := ((macdSignalOf macdHistogram : ℚ) : ℝ) * 0.15 with hd2
    set e := s * 0.10 with he
    have hab := abs_add (a + b + c + d) e
    have hab2 := abs_add (a + b + c) d
    have hab3 := abs_add (a + b) c
    have hab4 := abs_add a b
    have haa : |a| ≤ 0.9 := by
      rw [ha, abs_mul, show |(0.30 : ℝ)| = 0.30 by norm_num]
      nlinarith [abs_nonneg ((rsiSignal rsi : ℚ) : ℝ)]
    have hbb : |b| ≤ 0.75 := by
      rw [hb, abs_mul, show |(0.25 : ℝ)| = 0.25 by norm_num]
      nlinarith [abs_nonneg (maSignal sma20 sma50)]
    have hcc : |c| ≤ 0.6 := by
      rw [hc, abs_mul, show |(0.20 : ℝ)| = 0.20 by norm_num]
      nlinarith [abs_nonneg (momentumSignal momentum)]
    have hdd : |d| ≤ 0.3 := by
      rw [hd2, abs_mul, show |(0.15 : ℝ)| = 0.15 by norm_num]
      nlinarith [abs_nonneg ((macdSignalOf macdHistogram : ℚ) : ℝ)]
    have hee : |e| ≤ 0.2 := by
      rw [he, abs_mul, show |(0.10 : ℝ)| = 0.10 by norm_num]
      nlinarith [abs_nonneg s]
    calc |a + b + c + d + e| ≤ |a + b + c + d| + |e| := hab
      _ ≤ |a + b + c| + |d| + |e| := by linarith
      _ ≤ |a + b| + |c| + |d| + |e| := by linarith
      _ ≤ |a| + |b| + |c| + |d| + |e| := by linarith
      _ ≤ 2.75 := by linarith

theorem c10_prediction_score_bound_witness :
    (bbSignalOf none 0 = some 0 ∧ ((0 : ℝ) = -2 ∨ (0 : ℝ) = 0 ∨ (0 : ℝ) = 2)) ∧
    (((0 : ℝ) = -2 ∨ (0 : ℝ) = 0 ∨ (0 : ℝ) = 2) ∧
      |predictionScore 50 none none 0 0 0| ≤ 2.75) :=
  ⟨⟨rfl, c10_prediction_score_bound.1 none 0 0 rfl⟩,
   ⟨by norm_num,
    c10_prediction_score_bound.2 50 none none 0 0 0 (by norm_num)⟩⟩

/-! ## Claim C8: zero volatility and Bollinger width -/

theorem listMean_of_const (xs : List ℚ) (c : ℚ) (hne : xs ≠ [])
    (h : ∀ x ∈ xs, x = c) : listMean xs = c := by
  unfold listMean
  rw [List.sum_eq_card_nsmul xs c h, nsmul_eq_mul]
  have hl0 : xs.length ≠ 0 := fun h0 => hne (List.length_eq_zero.mp h0)
  have hl : (xs.length : ℚ) ≠ 0 := Nat.cast_ne_zero.mpr hl0
  field_simp

theorem sampleVar_of_const (xs : List ℚ) (c : ℚ) (h : ∀ x ∈ xs, x = c) :
    sampleVar xs = 0 := by
  unfold sampleVar
  rcases eq_or_ne xs [] with rfl | hne
  · simp
  · rw [List.sum_eq_zero, zero_div]
    intro y hy
    obtain ⟨x, hx, rfl⟩ := List.mem_map.mp hy
    rw [h x hx, listMean_of_const xs c hne h]
    ring

theorem sampleVar_pos (xs : List ℚ) (a b : ℚ) (ha : a ∈ xs) (hb : b ∈ xs)
    (hab : a ≠ b) : 0 < sampleVar xs := by
  have hlen : 2 ≤ xs.length := by
    rcases xs with _ | ⟨x, _ | ⟨y, t⟩⟩
    · simp at ha
    · rw [List.mem_singleton] at ha hb
      exact absurd (ha.trans hb.symm) hab
    · simp only [List.length_cons]
      omega
  obtain ⟨x, hx, hxm⟩ : ∃ x ∈ xs, x ≠ listMean xs := by
    rcases eq_or_ne a (listMean xs) with h | h
    · exact ⟨b, hb, fun hc => hab (h.trans hc.symm)⟩
    · exact ⟨a, ha, h⟩
  unfold sampleVar
  apply div_pos
  · have hnn : ∀ y ∈ xs.map (fun y => (y - listMean xs) ^ 2), 0 ≤ y := by
      intro y hy
      obtain ⟨z, _, rfl⟩ := List.mem_map.mp hy
      positivity
    have hmem : (x - listMean xs) ^ 2 ∈
        xs.map (fun y => (y - listMean xs) ^ 2) :=
      List.mem_map_of_mem _ hx
    have hpos : 0 < (x - listMean xs) ^ 2 :=
      pow_two_pos_of_ne_zero (sub_ne_zero.mpr hxm)
    have hle := List.single_le_sum hnn _ hmem
    linarith
  · have : (2 : ℚ) ≤ (xs.length : ℚ) := by exact_mod_cast hlen
    linarith

/-- Reduction of `calculate_volatility` when the window is full and
no divisor vanishes. -/
theorem calculate_volatility_eq (prices : List ℚ) (h : 20 ≤ prices.length)
    (hno : ¬ (0 : ℚ) ∈ (prices.drop (prices.length - 20)).dropLast) :
    calculate_volatility prices 20 =
      if (List.zipWith (fun a b => (b - a) / a)
            (prices.drop (prices.length - 20))
            ((prices.drop (prices.length - 20)).drop 1)).length ≤ 1
      then some 0
      else some (sampleStdev (List.zipWith (fun a b => (b - a) / a)
            (prices.drop (prices.length - 20))
            ((prices.drop (prices.length - 20)).drop 1)) * 100) := by
  unfold calculate_volatility pctReturns
  rw [if_neg (not_lt.mpr h), if_neg hno]

/-- Reduction of `calculate_bollinger_bands` on a full window. -/
theorem calculate_bollinger_bands_eq (prices : List ℚ) (h : 20 ≤ prices.length) :
    calculate_bollinger_bands prices 20 =
      some ((((prices.drop (prices.length - 20)).sum / ((20 : ℕ) : ℚ) : ℚ) : ℝ) +
              2 * sampleStdev (prices.drop (prices.length - 20)),
            (((prices.drop (prices.length - 20)).sum / ((20 : ℕ) : ℚ) : ℚ) : ℝ),
            (((prices.drop (prices.length - 20)).sum / ((20 : ℕ) : ℚ) : ℚ) : ℝ) -
              2 * sampleStdev (prices.drop (prices.length - 20))) := by
  unfold calculate_bollinger_bands calculate_sma
  rw [if_neg (not_lt.mpr h), if_neg (not_lt.mpr h)]

/-- The Bollinger band width `upper - lower` (0 when the bands are
undefined). -/
noncomputable def bollingerWidth (prices : List ℚ) : ℝ :=
  match calculate_bollinger_bands prices 20 with
  | some (upper, _, lower) => upper - lower
  | none => 0

theorem bollingerWidth_of_eq (prices : List ℚ) (u m l : ℝ)
    (h : calculate_bollinger_bands prices 20 = some (u, m, l)) :
    bollingerWidth prices = u - l := by
  unfold bollingerWidth
  rw [h]

/-- C8 (amended): on any 20-point-or-longer positive series whose
trailing daily returns are all equal, `calculate_volatility` returns
0; and the Bollinger band width is 0 exactly on series whose trailing
20 closes are all equal (a constant window), not on strictly rising
ones. -/
theorem c8_zero_volatility_flat_bollinger (prices₁ prices₂ : List ℚ) (r c : ℚ)
    (h1len : 20 ≤ prices₁.length) (h1pos : ∀ p ∈ prices₁, 0 < p)
    (h1ret : ∀ x ∈ List.zipWith (fun a b => (b - a) / a)
        (prices₁.drop (prices₁.length - 20))
        ((prices₁.drop (prices₁.length - 20)).drop 1), x = r)
    (h2len : 20 ≤ prices₂.length)
    (h2const : ∀ x ∈ prices₂.drop (prices₂.length - 20), x = c) :
    calculate_volatility prices₁ 20 = some 0 ∧ bollingerWidth prices₂ = 0 := by
  constructor
  · have hno : ¬ (0 : ℚ) ∈ (prices₁.drop (prices₁.length - 20)).dropLast := by
      intro h0
      have hmem : (0 : ℚ) ∈ prices₁ :=
        List.mem_of_mem_drop (List.mem_of_mem_dropLast h0)
      exact absurd (h1pos 0 hmem) (lt_irrefl 0)
    rw [calculate_volatility_eq prices₁ h1len hno]
    split_ifs with hlen1
    · rfl
    · rw [sampleStdev, sampleVar_of_const _ r h1ret, Rat.cast_zero,
        Real.sqrt_zero, zero_mul]
  · rw [bollingerWidth_of_eq prices₂ _ _ _ (calculate_bollinger_bands_eq prices₂ h2len)]
    rw [sampleStdev, sampleVar_of_const _ c h2const, Rat.cast_zero,
      Real.sqrt_zero]
    ring

/-- A strictly rising 20-point series whose daily returns are all
equal to 1 (each close doubles the previous one). -/
def doubling20 : List ℚ :=
  [1, 2, 4, 8, 16, 32, 64, 128, 256, 512, 1024, 2048, 4096, 8192,
   16384, 32768, 65536, 131072, 262144, 524288]

/-- A constant 20-point series. -/
def const20 : List ℚ :=
  [100, 100, 100, 100, 100, 100, 100, 100, 100, 100,
   100, 100, 100, 100, 100, 100, 100, 100, 100, 100]

theorem doubling20_drop : doubling20.drop (doubling20.length - 20) = doubling20 := by
  rw [show doubling20.length - 20 = 0 from by decide, List.drop_zero]

/-- C8 counterexample: the doubling series is monotonically rising
with all trailing daily returns equal (so its volatility is 0), yet
its Bollinger band width is strictly positive, because the band width
is built from the standard deviation of the prices, not the returns. -/
theorem c8_zero_volatility_flat_bollinger_counterexample :
    (∀ x ∈ List.zipWith (fun a b => (b - a) / a) doubling20
        (doubling20.drop 1), x = 1) ∧
    calculate_volatility doubling20 20 = some 0 ∧
    0 < bollingerWidth doubling20 := by
  have hret : ∀ x ∈ List.zipWith (fun a b => (b - a) / a) doubling20
      (doubling20.drop 1), x = 1 := by
    intro x hx
    norm_num [doubling20] at hx
    exact hx
  refine ⟨hret, ?_, ?_⟩
  · rw [calculate_volatility_eq doubling20 (by decide)
      (by rw [doubling20_drop]; norm_num [doubling20])]
    rw [doubling20_drop]
    rw [if_neg (by norm_num [doubling20])]
    rw [sampleStdev, sampleVar_of_const _ 1 hret, Rat.cast_zero,
      Real.sqrt_zero, zero_mul]
  · rw [bollingerWidth_of_eq doubling20 _ _ _
      (calculate_bollinger_bands_eq doubling20 (by decide))]
    rw [doubling20_drop]
    have hvar : 0 < sampleVar doubling20 :=
      sampleVar_pos doubling20 1 2 (by norm_num [doubling20])
        (by norm_num [doubling20]) (by norm_num)
    have hσ : 0 < sampleStdev doubling20 := by
      rw [sampleStdev]
      exact Real.sqrt_pos.mpr (by exact_mod_cast hvar)
    linarith

theorem c8_zero_volatility_flat_bollinger_witness :
    (20 ≤ doubling20.length ∧ (∀ p ∈ doubling20, 0 < p) ∧
      (∀ x ∈ List.zipWith (fun a b => (b - a) / a)
          (doubling20.drop (doubling20.length - 20))
          ((doubling20.drop (doubling20.length - 20)).drop 1), x = 1) ∧
      20 ≤ const20.length ∧
      (∀ x ∈ const20.drop (const20.length - 20), x = (100 : ℚ))) ∧
    calculate_volatility doubling20 20 = some 0 ∧
    bollingerWidth const20 = 0 := by
  have hpos : ∀ p ∈ doubling20, 0 < p := by
    intro p hp
    norm_num [doubling20] at hp
    rcases hp with rfl | rfl | rfl | rfl | rfl | rfl | rfl | rfl | rfl | rfl |
      rfl | rfl | rfl | rfl | rfl | rfl | rfl | rfl | rfl | rfl <;> norm_num
  have hret : ∀ x ∈ List.zipWith (fun a b => (b - a) / a)
      (doubling20.drop (doubling20.length - 20))
      ((doubling20.drop (doubling20.length - 20)).drop 1), x = 1 := by
    rw [doubling20_drop]
    intro x hx
    norm_num [doubling20] at hx
    exact hx
  have hconst : ∀ x ∈ const20.drop (const20.length - 20), x = (100 : ℚ) := by
    intro x hx
    norm_num [const20] at hx
    exact hx
  have main := c8_zero_volatility_flat_bollinger doubling20 const20 1 100
    (by decide) hpos hret (by decide) hconst
  exact ⟨⟨by decide, hpos, hret, by decide, hconst⟩, main.1, main.2⟩

/-! ## The successful run of `predict_price` -/

/-- The response `predict_price` returns when no failure path is
taken, with each monadically bound value extracted by `getD`. -/
noncomputable def responseOf (prices volumes : List ℚ) (daysAhead : ℕ)
    (u : ℕ → ℝ) : PredictionResponse :=
  let currentPrice := prices.getLastD 0
  let sma20 := calculate_sma prices 20
  let sma50 := calculate_sma prices 50
  let sma200 := calculate_sma prices 200
  let ema20 := calculate_ema prices 20
  let rsi := calculate_rsi prices 14
  let momentum := (calculate_momentum prices 10).getD 0
  let volatility := (calculate_volatility prices 20).getD 0
  let macd := calculate_macd prices
  let bands := calculate_bollinger_bands prices 20
  let sr := detect_support_resistance prices 20
  let avgVolume :=
    if 20 ≤ volumes.length then (volumes.drop (volumes.length - 20)).sum / 20
    else volumes.sum / volumes.length
  let volumeTrend := (volumes.getLastD 0 - avgVolume) / avgVolume * 100
  let bbSignal := (bbSignalOf bands currentPrice).getD 0
  let score := predictionScore rsi sma20 sma50 momentum macd.2.2 bbSignal
  let dailyRate := (score * (volatility / 5) + (momentum : ℝ) * 0.1) / daysAhead
  { current_price := roundq2 currentPrice
    predictions := genPredictions currentPrice dailyRate volatility u daysAhead
    signal := signalOf score
    confidence := roundr1 (confidence score volatility)
    indicators :=
      { sma_20 := sma20.map roundq2
        sma_50 := sma50.map roundq2
        ema_20 := ema20.map roundq2
        rsi := roundq2 rsi
        momentum := roundq2 momentum
        volatility := roundr2 volatility
        trend_score := trendScore currentPrice sma20 sma50 sma200
        support := sr.1.map roundq2
        resistance := sr.2.map roundq2
        volume_trend := roundq2 volumeTrend } }

/-- `predict_price` succeeds, returning `responseOf`, whenever none
of the failure paths fire: nonempty history, no zero divisor in the
momentum and volatility windows, nonzero average volume, a safe
`recent_change` divisor, a nonzero Bollinger width when the bands are
truthy, and a nonzero horizon. -/
theorem predict_price_eq_some (prices volumes : List ℚ) (daysAhead : ℕ)
    (u : ℕ → ℝ)
    (hp : prices ≠ []) (hv : volumes ≠ [])
    (hm10 : (calculate_momentum prices 10).isSome)
    (hm20 : (calculate_momentum prices 20).isSome)
    (hvol : (calculate_volatility prices 20).isSome)
    (havg : (if 20 ≤ volumes.length
        then (volumes.drop (volumes.length - 20)).sum / 20
        else volumes.sum / volumes.length) ≠ 0)
    (hrec : ¬ (5 ≤ prices.length ∧ prices.getD (prices.length - 5) 0 = 0))
    (hbb : (bbSignalOf (calculate_bollinger_bands prices 20)
        (prices.getLastD 0)).isSome)
    (hd : daysAhead ≠ 0) :
    predict_price prices volumes daysAhead u =
      some (responseOf prices volumes daysAhead u) := by
  obtain ⟨m10, hm10e⟩ := Option.isSome_iff_exists.mp hm10
  obtain ⟨m20, hm20e⟩ := Option.isSome_iff_exists.mp hm20
  obtain ⟨vol, hvole⟩ := Option.isSome_iff_exists.mp hvol
  obtain ⟨bbs, hbbe⟩ := Option.isSome_iff_exists.mp hbb
  unfold predict_price responseOf
  rw [if_neg (by simp [hp, hv])]
  simp only [hm10e, hm20e, hvole, hbbe, Option.some_bind, Option.getD_some,
    guard, if_pos havg, if_pos hrec, if_pos hd, Option.some_bind]
  rfl

theorem getD_mem_of_lt (l : List ℚ) (i : ℕ) (h : i < l.length) :
    l.getD i 0 ∈ l := by
  rw [List.getD_eq_getElem?_getD, List.getElem?_eq_getElem h]
  exact List.getElem_mem h

theorem getLastD_mem (l : List ℚ) (h : l ≠ []) : l.getLastD 0 ∈ l := by
  rw [List.getLastD_eq_getLast?, List.getLast?_eq_getLast _ h]
  exact List.getLast_mem h

theorem calculate_momentum_isSome (prices : List ℚ) (period : ℕ)
    (hpos : ∀ p ∈ prices, 0 < p) (hper : 1 ≤ period) :
    (calculate_momentum prices period).isSome := by
  unfold calculate_momentum
  split_ifs with h1
  · rfl
  · by_cases h2 : prices.getD (prices.length - period) 0 = 0
    · exfalso
      have hidx : prices.length - period < prices.length := by omega
      have hmem := getD_mem_of_lt prices (prices.length - period) hidx
      rw [h2] at hmem
      exact absurd (hpos 0 hmem) (lt_irrefl 0)
    · simp only [if_neg h2]
      rfl

theorem calculate_volatility_isSome (prices : List ℚ)
    (hpos : ∀ p ∈ prices, 0 < p) :
    (calculate_volatility prices 20).isSome := by
  by_cases h : prices.length < 20
  · unfold calculate_volatility
    rw [if_pos h]
    rfl
  · have hno : ¬ (0 : ℚ) ∈ (prices.drop (prices.length - 20)).dropLast :=
      fun h0 => absurd
        (hpos 0 (List.mem_of_mem_drop (List.mem_of_mem_dropLast h0)))
        (lt_irrefl 0)
    rw [calculate_volatility_eq prices (not_lt.mp h) hno]
    split_ifs <;> rfl

theorem bbSignalOf_isSome (bands : Option (ℝ × ℝ × ℝ)) (currentPrice : ℚ)
    (hw : ∀ x m l, bands = some (x, m, l) → x - l ≠ 0) :
    (bbSignalOf bands currentPrice).isSome := by
  rcases bands with _ | ⟨uu, mm, ll⟩
  · rfl
  · rw [bbSignalOf_some]
    split_ifs with h1 h2 h3 h4 <;>
      first | rfl | exact absurd h2 (hw uu mm ll rfl)

/-- A window containing two distinct closes gives the Bollinger bands
a nonzero width. -/
theorem bollinger_width_ne (prices : List ℚ) (h20 : 20 ≤ prices.length)
    (a b : ℚ) (ha : a ∈ prices.drop (prices.length - 20))
    (hb : b ∈ prices.drop (prices.length - 20)) (hab : a ≠ b) :
    ∀ x m l, calculate_bollinger_bands prices 20 = some (x, m, l) →
      x - l ≠ 0 := by
  intro x m l h
  rw [calculate_bollinger_bands_eq prices h20] at h
  simp only [Option.some.injEq, Prod.mk.injEq] at h
  obtain ⟨hx, _, hl⟩ := h
  have hvar : 0 < sampleVar (prices.drop (prices.length - 20)) :=
    sampleVar_pos _ a b ha hb hab
  have hσ : 0 < sampleStdev (prices.drop (prices.length - 20)) := by
    rw [sampleStdev]
    exact Real.sqrt_pos.mpr (by exact_mod_cast hvar)
  rw [← hx, ← hl]
  intro hc
  nlinarith

theorem genPredictions_length (currentPrice : ℚ) (dailyRate volatility : ℝ)
    (u : ℕ → ℝ) (daysAhead : ℕ) :
    (genPredictions currentPrice dailyRate volatility u daysAhead).length =
      daysAhead := by
  simp [genPredictions]

theorem genPredictions_day_map (currentPrice : ℚ) (dailyRate volatility : ℝ)
    (u : ℕ → ℝ) (daysAhead : ℕ) :
    (genPredictions currentPrice dailyRate volatility u daysAhead).map
      (fun p => p.day) = List.range' 1 daysAhead := by
  rw [genPredictions, List.map_map, List.range'_eq_map_range]
  simp [Nat.add_comm]

/-! ## Claim C2: predictions length and day fields -/

/-- C2 (amended): for a series of at least 20 positive closes whose
trailing 20-close window is not constant, with a nonzero average
volume and a horizon of at least 1, the analysis succeeds and returns
exactly `horizon` predictions whose day fields are exactly
`1..horizon` in increasing order. -/
theorem c2_predictions_shape (prices volumes : List ℚ) (daysAhead : ℕ)
    (u : ℕ → ℝ)
    (hlen : 20 ≤ prices.length)
    (hpos : ∀ p ∈ prices, 0 < p)
    (hvne : volumes ≠ [])
    (havg : (if 20 ≤ volumes.length
        then (volumes.drop (volumes.length - 20)).sum / 20
        else volumes.sum / volumes.length) ≠ 0)
    (a b : ℚ) (ha : a ∈ prices.drop (prices.length - 20))
    (hb : b ∈ prices.drop (prices.length - 20)) (hab : a ≠ b)
    (hd : 1 ≤ daysAhead) :
    ∃ r, predict_price prices volumes daysAhead u = some r ∧
      r.predictions.length = daysAhead ∧
      r.predictions.map (fun p => p.day) = List.range' 1 daysAhead := by
  have hp : prices ≠ [] := by
    intro h0
    rw [h0] at hlen
    simp at hlen
  have hrec : ¬ (5 ≤ prices.length ∧
      prices.getD (prices.length - 5) 0 = 0) := by
    rintro ⟨h5, h0⟩
    have hmem := getD_mem_of_lt prices (prices.length - 5) (by omega)
    rw [h0] at hmem
    exact absurd (hpos 0 hmem) (lt_irrefl 0)
  refine ⟨responseOf prices volumes daysAhead u,
    predict_price_eq_some prices volumes daysAhead u hp hvne
      (calculate_momentum_isSome prices 10 hpos (by norm_num))
      (calculate_momentum_isSome prices 20 hpos (by norm_num))
      (calculate_volatility_isSome prices hpos)
      havg hrec
      (bbSignalOf_isSome _ _ (bollinger_width_ne prices hlen a b ha hb hab))
      (by omega), ?_, ?_⟩
  · exact genPredictions_length _ _ _ _ _
  · exact genPredictions_day_map _ _ _ _ _

/-- Twenty days of constant volume 1000. -/
def vols1000 : List ℚ :=
  [1000, 1000, 1000, 1000, 1000, 1000, 1000, 1000, 1000, 1000,
   1000, 1000, 1000, 1000, 1000, 1000, 1000, 1000, 1000, 1000]

/-- Twenty days of zero volume. -/
def zeros20 : List ℚ :=
  [0, 0, 0, 0, 0, 0, 0, 0, 0, 0, 0, 0, 0, 0, 0, 0, 0, 0, 0, 0]

theorem const20_drop : const20.drop (const20.length - 20) = const20 := by
  rw [show const20.length - 20 = 0 from by decide, List.drop_zero]

theorem const20_bands :
    calculate_bollinger_bands const20 20 = some (100, 100, 100) := by
  rw [calculate_bollinger_bands_eq const20 (by decide), const20_drop]
  rw [sampleStdev, sampleVar_of_const const20 100
    (by intro x hx; norm_num [const20] at hx; exact hx),
    Rat.cast_zero, Real.sqrt_zero]
  norm_num [const20]

/-- C2 counterexample: a well-formed 20-point series of constant
positive closes makes `bb_position` divide by the zero band width, so
the analysis aborts with `None` instead of returning a result; and a
well-formed series whose 20 trailing volumes are all zero likewise
aborts on the `volume_trend` division. -/
theorem c2_predictions_shape_counterexample :
    (20 ≤ const20.length ∧ (∀ p ∈ const20, 0 < p) ∧
      predict_price const20 vols1000 5 (fun _ => 0) = none) ∧
    predict_price const20 zeros20 5 (fun _ => 0) = none := by
  have hm10 : calculate_momentum const20 10 = some 0 := by
    norm_num [calculate_momentum, const20]
  have hm20 : calculate_momentum const20 20 = some 0 := by
    norm_num [calculate_momentum, const20]
  have hvol : calculate_volatility const20 20 = some 0 := by
    rw [calculate_volatility_eq const20 (by decide)
      (by rw [const20_drop]; norm_num [const20]), const20_drop]
    rw [if_neg (by decide)]
    have hz : ∀ x ∈ List.zipWith (fun a b => (b - a) / a) const20
        (const20.drop 1), x = (0 : ℚ) := by
      intro x hx
      norm_num [const20] at hx
      exact hx
    rw [sampleStdev, sampleVar_of_const _ 0 hz, Rat.cast_zero,
      Real.sqrt_zero, zero_mul]
  have hcur : const20.getLastD 0 = 100 := by norm_num [const20]
  have hbb : bbSignalOf (calculate_bollinger_bands const20 20)
      (const20.getLastD 0) = none := by
    rw [const20_bands, hcur, bbSignalOf_some]
    rw [if_pos (by norm_num : (100 : ℝ) ≠ 0 ∧ (100 : ℝ) ≠ 0)]
    rw [if_pos (by norm_num : (100 : ℝ) - 100 = 0)]
  refine ⟨⟨by decide, ?_, ?_⟩, ?_⟩
  · intro p hp
    norm_num [const20] at hp
    rw [hp]
    norm_num
  · unfold predict_price
    rw [if_neg (by simp [const20, vols1000])]
    simp only [hm10, hm20, hvol, Option.some_bind, guard]
    rw [if_pos (by norm_num [vols1000] : (if 20 ≤ vols1000.length
      then (vols1000.drop (vols1000.length - 20)).sum / 20
      else vols1000.sum / vols1000.length) ≠ 0)]
    rw [if_pos (by
      rintro ⟨h5, h0⟩
      norm_num [const20] at h0)]
    simp only [hbb]
    rfl
  · unfold predict_price
    rw [if_neg (by simp [const20, zeros20])]
    simp only [hm10, hm20, hvol, Option.some_bind, guard]
    rw [if_neg (by norm_num [zeros20] : ¬ (if 20 ≤ zeros20.length
      then (zeros20.drop (zeros20.length - 20)).sum / 20
      else zeros20.sum / zeros20.length) ≠ 0)]
    simp

theorem c2_predictions_shape_witness :
    (20 ≤ jumpSeries.length ∧ (∀ p ∈ jumpSeries, 0 < p) ∧
      (100 : ℚ) ∈ jumpSeries.drop (jumpSeries.length - 20) ∧
      (130 : ℚ) ∈ jumpSeries.drop (jumpSeries.length - 20) ∧
      (1 : ℕ) ≤ 5) ∧
    ∃ r, predict_price jumpSeries vols1000 5 (fun _ => 0) = some r ∧
      r.predictions.length = 5 ∧
      r.predictions.map (fun p => p.day) = List.range' 1 5 := by
  have hpos : ∀ p ∈ jumpSeries, 0 < p := by
    intro p hp
    norm_num [jumpSeries] at hp
    rcases hp with rfl | rfl <;> norm_num
  have hdropj : jumpSeries.drop (jumpSeries.length - 20) = jumpSeries := by
    rw [show jumpSeries.length - 20 = 0 from by decide, List.drop_zero]
  have ha : (100 : ℚ) ∈ jumpSeries.drop (jumpSeries.length - 20) := by
    rw [hdropj]
    norm_num [jumpSeries]
  have hb : (130 : ℚ) ∈ jumpSeries.drop (jumpSeries.length - 20) := by
    rw [hdropj]
    norm_num [jumpSeries]
  exact ⟨⟨by decide, hpos, ha, hb, by norm_num⟩,
    c2_predictions_shape jumpSeries vols1000 5 (fun _ => 0) (by decide)
      hpos (by decide)
      (by norm_num [vols1000]) 100 130 ha hb (by norm_num) (by norm_num)⟩

/-! ## Claim C4: behaviour on short series -/

theorem roundq2_eval (q : ℚ) (n : ℤ) (h1 : (n : ℚ) ≤ q * 100 + 1 / 2)
    (h2 : q * 100 + 1 / 2 < n + 1) : roundq2 q = n / 100 := by
  unfold roundq2
  rw [show ⌊q * 100 + 1 / 2⌋ = n from Int.floor_eq_iff.mpr ⟨h1, h2⟩]

theorem roundr2_zero : roundr2 0 = 0 := by
  rw [roundr2_eq 0 0 (by norm_num) (by norm_num)]
  norm_num

theorem roundq2_50 : roundq2 50 = 50 := by
  rw [roundq2_eval 50 5000 (by norm_num) (by norm_num)]
  norm_num

/-- C4 (amended): the engine rejects (returns `None` for) the empty
series, but any nonempty series shorter than 20 positive closes with
a nonzero average volume still produces a full prediction result,
assembled from the documented per-indicator sentinels: volatility 0,
`sma_20` and support `None`, and RSI 50 when fewer than 15 prices
exist. -/
theorem c4_short_series_behaviour (prices volumes : List ℚ) (daysAhead : ℕ)
    (u : ℕ → ℝ)
    (hne : prices ≠ []) (hshort : prices.length < 20)
    (hpos : ∀ p ∈ prices, 0 < p) (hvne : volumes ≠ [])
    (havg : (if 20 ≤ volumes.length
        then (volumes.drop (volumes.length - 20)).sum / 20
        else volumes.sum / volumes.length) ≠ 0)
    (hd : 1 ≤ daysAhead) :
    predict_price [] volumes daysAhead u = none ∧
    ∃ r, predict_price prices volumes daysAhead u = some r ∧
      r.indicators.volatility = 0 ∧ r.indicators.sma_20 = none ∧
      r.indicators.support = none ∧
      (prices.length < 15 → r.indicators.rsi = 50) := by
  constructor
  · unfold predict_price
    rw [if_pos (Or.inl rfl)]
  · have hvol0 : calculate_volatility prices 20 = some 0 := by
      unfold calculate_volatility
      rw [if_pos hshort]
    have hbands : calculate_bollinger_bands prices 20 = none := by
      unfold calculate_bollinger_bands
      rw [if_pos hshort]
    have hrec : ¬ (5 ≤ prices.length ∧
        prices.getD (prices.length - 5) 0 = 0) := by
      rintro ⟨h5, h0⟩
      have hmem := getD_mem_of_lt prices (prices.length - 5) (by omega)
      rw [h0] at hmem
      exact absurd (hpos 0 hmem) (lt_irrefl 0)
    refine ⟨responseOf prices volumes daysAhead u,
      predict_price_eq_some prices volumes daysAhead u hne hvne
        (calculate_momentum_isSome prices 10 hpos (by norm_num))
        (calculate_momentum_isSome prices 20 hpos (by norm_num))
        (calculate_volatility_isSome prices hpos) havg hrec
        (by rw [hbands]; rfl) (by omega), ?_, ?_, ?_, ?_⟩
    · show roundr2 ((calculate_volatility prices 20).getD 0) = 0
      rw [hvol0, Option.getD_some]
      exact roundr2_zero
    · show (calculate_sma prices 20).map roundq2 = none
      rw [show calculate_sma prices 20 = none from by
        unfold calculate_sma
        rw [if_pos hshort]]
      rfl
    · show ((detect_support_resistance prices 20).1).map roundq2 = none
      rw [show detect_support_resistance prices 20 = (none, none) from by
        unfold detect_support_resistance
        rw [if_pos hshort]]
      rfl
    · intro h15
      show roundq2 (calculate_rsi prices 14) = 50
      rw [show calculate_rsi prices 14 = 50 from by
        unfold calculate_rsi
        rw [if_pos (by omega)]]
      exact roundq2_50

/-- A five-day positive history. -/
def fivePt : List ℚ := [10, 11, 12, 13, 14]

/-- Five days of volume 5. -/
def fiveVols : List ℚ := [5, 5, 5, 5, 5]

/-- C4 counterexample: a well-formed five-point series is not
rejected — the engine returns a full prediction result whose
indicators carry the neutral sentinels (RSI 50, volatility 0, SMA-20
absent), exactly the misleading-defaults outcome the claim rules
out. -/
theorem c4_short_series_behaviour_counterexample :
    fivePt.length < 20 ∧ (∀ p ∈ fivePt, 0 < p) ∧
    ∃ r, predict_price fivePt fiveVols 1 (fun _ => 0) = some r ∧
      r.indicators.rsi = 50 ∧ r.indicators.volatility = 0 ∧
      r.indicators.sma_20 = none := by
  have hpos : ∀ p ∈ fivePt, 0 < p := by
    intro p hp
    norm_num [fivePt] at hp
    rcases hp with rfl | rfl | rfl | rfl | rfl <;> norm_num
  have hvol0 : calculate_volatility fivePt 20 = some 0 := by
    unfold calculate_volatility
    rw [if_pos (by decide)]
  have hbands : calculate_bollinger_bands fivePt 20 = none := by
    unfold calculate_bollinger_bands
    rw [if_pos (by decide)]
  have hrec : ¬ (5 ≤ fivePt.length ∧
      fivePt.getD (fivePt.length - 5) 0 = 0) := by
    rintro ⟨h5, h0⟩
    norm_num [fivePt] at h0
  refine ⟨by decide, hpos,
    responseOf fivePt fiveVols 1 (fun _ => 0),
    predict_price_eq_some fivePt fiveVols 1 (fun _ => 0) (by decide)
      (by decide)
      (calculate_momentum_isSome fivePt 10 hpos (by norm_num))
      (calculate_momentum_isSome fivePt 20 hpos (by norm_num))
      (calculate_volatility_isSome fivePt hpos)
      (by norm_num [fiveVols]) hrec
      (by rw [hbands]; rfl) (by norm_num), ?_, ?_, ?_⟩
  · show roundq2 (calculate_rsi fivePt 14) = 50
    rw [show calculate_rsi fivePt 14 = 50 from by
      unfold calculate_rsi
      rw [if_pos (by decide)]]
    exact roundq2_50
  · show roundr2 ((calculate_volatility fivePt 20).getD 0) = 0
    rw [hvol0, Option.getD_some]
    exact roundr2_zero
  · show (calculate_sma fivePt 20).map roundq2 = none
    rw [show calculate_sma fivePt 20 = none from by
      unfold calculate_sma
      rw [if_pos (by decide)]]
    rfl

theorem c4_short_series_behaviour_witness :
    (fivePt ≠ [] ∧ fivePt.length < 20 ∧ (∀ p ∈ fivePt, 0 < p) ∧
      fiveVols ≠ [] ∧ (1 : ℕ) ≤ 1) ∧
    (predict_price [] fiveVols 1 (fun _ => 0) = none ∧
    ∃ r, predict_price fivePt fiveVols 1 (fun _ => 0) = some r ∧
      r.indicators.volatility = 0 ∧ r.indicators.sma_20 = none ∧
      r.indicators.support = none ∧
      (fivePt.length < 15 → r.indicators.rsi = 50)) := by
  have hpos : ∀ p ∈ fivePt, 0 < p := by
    intro p hp
    norm_num [fivePt] at hp
    rcases hp with rfl | rfl | rfl | rfl | rfl <;> norm_num
  exact ⟨⟨by decide, by decide, hpos, by decide, le_refl 1⟩,
    c4_short_series_behaviour fivePt fiveVols 1 (fun _ => 0) (by decide)
      (by decide) hpos (by decide) (by norm_num [fiveVols]) (by norm_num)⟩

/-! ## Claim C9: positivity of projected prices -/

/-- C9 (amended): every projected point has a positive price
provided the unrounded projected price
`current_price * (1 + cumulative_change/100)` stays at least half a
cent on every day of the horizon; without that proviso the price can
go negative (see the counterexample), since the cumulative change is
unbounded below. -/
theorem c9_positive_prices (currentPrice : ℚ) (dailyRate volatility : ℝ)
    (u : ℕ → ℝ) (daysAhead : ℕ)
    (hcum : ∀ d, 1 ≤ d → d ≤ daysAhead →
      1 / 200 ≤ (currentPrice : ℝ) *
        (1 + cumulativeChange dailyRate volatility u daysAhead d / 100)) :
    ∀ pt ∈ genPredictions currentPrice dailyRate volatility u daysAhead,
      0 < pt.price := by
  intro pt hpt
  unfold genPredictions at hpt
  obtain ⟨i, hi, rfl⟩ := List.mem_map.mp hpt
  rw [List.mem_range] at hi
  exact roundr2_pos_of _ (hcum (i + 1) (by omega) (by omega))

theorem c9_positive_prices_witness :
    (∀ d, 1 ≤ d → d ≤ 1 →
      1 / 200 ≤ ((100 : ℚ) : ℝ) *
        (1 + cumulativeChange 0 0 (fun _ => 0) 1 d / 100)) ∧
    ∀ pt ∈ genPredictions 100 0 0 (fun _ => 0) 1, 0 < pt.price := by
  have hcum : ∀ d, 1 ≤ d → d ≤ 1 →
      1 / 200 ≤ ((100 : ℚ) : ℝ) *
        (1 + cumulativeChange 0 0 (fun _ => 0) 1 d / 100) := by
    intro d h1 h2
    have hd : d = 1 := by omega
    subst hd
    simp only [cumulativeChange, dayFactor]
    norm_num
  exact ⟨hcum, c9_positive_prices 100 0 0 (fun _ => 0) 1 hcum⟩

/-- The price of the first projected point (1 when absent), for
stating concrete facts about a `predict_price` run. -/
noncomputable def firstPredictionPrice (o : Option PredictionResponse) : ℝ :=
  match o with
  | some r => (r.predictions.getD 0 ⟨0, 1, 1⟩).price
  | none => 1

theorem firstPredictionPrice_some (r : PredictionResponse) :
    firstPredictionPrice (some r) = (r.predictions.getD 0 ⟨0, 1, 1⟩).price :=
  rfl

theorem responseOf_predictions (prices volumes : List ℚ) (daysAhead : ℕ)
    (u : ℕ → ℝ) :
    (responseOf prices volumes daysAhead u).predictions =
      genPredictions (prices.getLastD 0)
        ((predictionScore (calculate_rsi prices 14) (calculate_sma prices 20)
            (calculate_sma prices 50) ((calculate_momentum prices 10).getD 0)
            (calculate_macd prices).2.2
            ((bbSignalOf (calculate_bollinger_bands prices 20)
              (prices.getLastD 0)).getD 0) *
          (((calculate_volatility prices 20).getD 0) / 5) +
          (((calculate_momentum prices 10).getD 0 : ℚ) : ℝ) * 0.1) / daysAhead)
        ((calculate_volatility prices 20).getD 0) u daysAhead := rfl

/-- A positive 20-close series with one crash-and-recover step: close
1 followed by nineteen closes of 100. Its return volatility is huge
(the first return is +9900 percent). -/
def crashP : List ℚ :=
  [1, 100, 100, 100, 100, 100, 100, 100, 100, 100,
   100, 100, 100, 100, 100, 100, 100, 100, 100, 100]

theorem crashP_drop : crashP.drop (crashP.length - 20) = crashP := by
  rw [show crashP.length - 20 = 0 from by decide, List.drop_zero]

set_option maxHeartbeats 1000000 in
/-- C9 counterexample: on the positive-close series `crashP` (one
close of 1, then nineteen of 100) the RSI tops out at 100 and the
return volatility is about 2271 percent, so the projected day-1
cumulative change is far below -100 percent and the projected price
is negative. -/
theorem c9_positive_prices_counterexample :
    (∀ p ∈ crashP, 0 < p) ∧
    (predict_price crashP vols1000 1 (fun _ => 0)).isSome = true ∧
    firstPredictionPrice (predict_price crashP vols1000 1 (fun _ => 0)) < 0 := by
  have hpos : ∀ p ∈ crashP, 0 < p := by
    intro p hp
    norm_num [crashP] at hp
    rcases hp with rfl | rfl <;> norm_num
  have hcur : crashP.getLastD 0 = 100 := by norm_num [crashP]
  have hm10e : calculate_momentum crashP 10 = some 0 := by
    norm_num [calculate_momentum, crashP]
  have hm20e : calculate_momentum crashP 20 = some 9900 := by
    norm_num [calculate_momentum, crashP]
  have hno : ¬ (0 : ℚ) ∈ (crashP.drop (crashP.length - 20)).dropLast := by
    rw [crashP_drop]
    norm_num [crashP]
  have hvole : calculate_volatility crashP 20 =
      some (sampleStdev (List.zipWith (fun a b => (b - a) / a) crashP
        (crashP.drop 1)) * 100) := by
    rw [calculate_volatility_eq crashP (by decide) hno, crashP_drop,
      if_neg (by decide)]
  have hvarRet : sampleVar (List.zipWith (fun a b => (b - a) / a) crashP
      (crashP.drop 1)) = 9801 / 19 := by
    norm_num [sampleVar, listMean, crashP]
  have hretv_lb : (22 : ℝ) ≤ sampleStdev (List.zipWith (fun a b => (b - a) / a)
      crashP (crashP.drop 1)) := by
    rw [sampleStdev, Real.le_sqrt' (by norm_num), hvarRet]
    push_cast
    norm_num
  have hvarP : sampleVar crashP = 9801 / 20 := by
    norm_num [sampleVar, listMean, crashP]
  have hσ_lb : (22 : ℝ) ≤ sampleStdev crashP := by
    rw [sampleStdev, Real.le_sqrt' (by norm_num), hvarP]
    push_cast
    norm_num
  have hσ_ub : sampleStdev crashP < 23 := by
    rw [sampleStdev, Real.sqrt_lt' (by norm_num), hvarP]
    push_cast
    norm_num
  have hsma20 : calculate_sma crashP 20 = some (1901 / 20) := by
    unfold calculate_sma
    rw [if_neg (by decide), crashP_drop]
    norm_num [crashP]
  have hsma50 : calculate_sma crashP 50 = none := by
    unfold calculate_sma
    rw [if_pos (by decide)]
  have hrsi : calculate_rsi crashP 14 = 100 := by
    unfold calculate_rsi
    rw [if_neg (by decide), if_pos (by norm_num [avgLoss, deltas, crashP])]
  have hmacd : calculate_macd crashP = (0, 0, 0) := by
    unfold calculate_macd
    rw [if_pos (by decide)]
  have hbandse : calculate_bollinger_bands crashP 20 =
      some (((1901 / 20 : ℚ) : ℝ) + 2 * sampleStdev crashP,
            ((1901 / 20 : ℚ) : ℝ),
            ((1901 / 20 : ℚ) : ℝ) - 2 * sampleStdev crashP) := by
    rw [calculate_bollinger_bands_eq crashP (by decide), crashP_drop]
    norm_num [crashP]
  have hbbs : bbSignalOf (calculate_bollinger_bands crashP 20)
      (crashP.getLastD 0) = some 0 := by
    rw [hbandse, hcur, bbSignalOf_some]
    have hupos : (0 : ℝ) < ((1901 / 20 : ℚ) : ℝ) + 2 * sampleStdev crashP := by
      push_cast
      nlinarith [hσ_lb]
    have hlpos : (0 : ℝ) < ((1901 / 20 : ℚ) : ℝ) - 2 * sampleStdev crashP := by
      push_cast
      nlinarith [hσ_ub]
    rw [if_pos ⟨ne_of_gt hupos, ne_of_gt hlpos⟩]
    have hwpos : (0 : ℝ) < ((1901 / 20 : ℚ) : ℝ) + 2 * sampleStdev crashP -
        (((1901 / 20 : ℚ) : ℝ) - 2 * sampleStdev crashP) := by
      push_cast
      nlinarith [hσ_lb]
    rw [if_neg (ne_of_gt hwpos)]
    have h02 : ¬ (((100 : ℚ) : ℝ) - (((1901 / 20 : ℚ) : ℝ) -
        2 * sampleStdev crashP)) / (((1901 / 20 : ℚ) : ℝ) +
        2 * sampleStdev crashP - (((1901 / 20 : ℚ) : ℝ) -
        2 * sampleStdev crashP)) < 0.2 := by
      rw [not_lt, le_div_iff hwpos]
      push_cast
      nlinarith [hσ_lb]
    rw [if_neg h02]
    have h08 : ¬ (((100 : ℚ) : ℝ) - (((1901 / 20 : ℚ) : ℝ) -
        2 * sampleStdev crashP)) / (((1901 / 20 : ℚ) : ℝ) +
        2 * sampleStdev crashP - (((1901 / 20 : ℚ) : ℝ) -
        2 * sampleStdev crashP)) > 0.8 := by
      rw [not_lt, div_le_iff hwpos]
      push_cast
      nlinarith [hσ_lb]
    rw [if_neg h08]
  have hrec : ¬ (5 ≤ crashP.length ∧
      crashP.getD (crashP.length - 5) 0 = 0) := by
    rintro ⟨h5, h0⟩
    norm_num [crashP] at h0
  have hpred : predict_price crashP vols1000 1 (fun _ => 0) =
      some (responseOf crashP vols1000 1 (fun _ => 0)) :=
    predict_price_eq_some crashP vols1000 1 (fun _ => 0) (by decide)
      (by decide) (by rw [hm10e]; rfl) (by rw [hm20e]; rfl)
      (by rw [hvole]; rfl) (by norm_num [vols1000]) hrec
      (by rw [hbbs]; rfl) (by norm_num)
  have hscore : predictionScore 100 (some (1901 / 20)) none 0 0 0 =
      -(0.9 : ℝ) := by
    unfold predictionScore
    rw [show maSignal (some (1901 / 20 : ℚ)) none = 0 from rfl]
    rw [show rsiSignal 100 = -3 from by norm_num [rsiSignal]]
    rw [show macdSignalOf 0 = 0 from by norm_num [macdSignalOf]]
    unfold momentumSignal
    push_cast
    rw [show (0 : ℝ) / 10 = 0 by norm_num, Real.tanh_zero]
    norm_num
  refine ⟨hpos, by rw [hpred]; rfl, ?_⟩
  rw [hpred, firstPredictionPrice_some, responseOf_predictions]
  rw [hm10e, hvole, hrsi, hsma20, hsma50, hmacd, hbbs, hcur]
  simp only [Option.getD_some]
  rw [hscore]
  simp only [genPredictions]
  rw [show List.range 1 = [0] from rfl]
  simp only [List.map_cons, List.map_nil, List.getD_cons_zero]
  show roundr2 _ < 0
  rw [roundr2_neg_iff]
  simp only [cumulativeChange, dayFactor, zero_add]
  push_cast
  nlinarith [hretv_lb]
